import Mathlib

/-
Verification of the Insight-Watt energy-advisor frontend and of the analysis
engine described in its specification.

Shallow embedding conventions:
* TypeScript `number` values are modelled as exact rationals (`ℚ`);
  `Number.prototype.toFixed(2)` followed by `parseFloat` is modelled as
  rounding to the nearest multiple of 1/100 (`round2`).
* A JavaScript `Map`/plain-object (`Record`) is modelled as an association
  list in insertion order: `set` on an existing key updates the entry in
  place, `set` on a fresh key appends (`mapSet`), matching the iteration
  order of `Map.prototype.entries` / `Object.entries`.
* Optional (`?`) fields become `Option`; calendar dates produced by
  `setDate (getDate () + index)` are modelled as day numbers (`Nat`).
-/

namespace InsightWatt

/-- A JavaScript Map lookup (`Map.get` / object indexing) on an association
list: returns the value of the first entry with the given key. -/
def mapGet {κ α : Type} [DecidableEq κ] : List (κ × α) → κ → Option α
  | [], _ => none
  | e :: rest, k => if e.1 = k then some e.2 else mapGet rest k

/-- A JavaScript `Map.set`: updating an existing key keeps its position in
iteration order, a fresh key is appended at the end. -/
def mapSet {κ α : Type} [DecidableEq κ] (m : List (κ × α)) (k : κ) (v : α) :
    List (κ × α) :=
  if (mapGet m k).isSome then
    m.map (fun e => if e.1 = k then (k, v) else e)
  else
    m ++ [(k, v)]

/-- Rounding to two decimal places, the model of
`parseFloat(x.toFixed(2))` on exact rationals. -/
def round2 (x : ℚ) : ℚ := (round (x * 100) : ℚ) / 100

/- ===== API data model (src/Insight-Watt-Frontend/src/types/api.ts) ===== -/

/-- ForecastDataPoint from api.ts. -/
structure ForecastDataPoint where
  datetime : String
  predicted_usage : ℚ
deriving DecidableEq, Repr

/-- RiskDay from api.ts. -/
structure RiskDay where
  date : String
  total_usage_kw : ℚ
  reasons : List String
  severity : String
deriving DecidableEq, Repr

/-- RiskReport from api.ts; `total_risk_days` is a TypeScript `number`
holding an integer count. -/
structure RiskReport where
  total_risk_days : Int
  risk_details : List RiskDay
  summary : String
deriving DecidableEq, Repr

/-- DayPlanAction from api.ts. -/
structure DayPlanAction where
  action : String
  reason : String
deriving DecidableEq, Repr

/-- A `Record<string, DayPlanAction[]>` in insertion order. -/
abbrev PlanMap := List (String × List DayPlanAction)

/-- SevenDayPlan from api.ts.  The field `plan_7_day` embeds the JSON key
`"7_day_plan"` (a Lean name cannot begin with a digit); `daily_plan` embeds
the key `"daily_plan"`.  Both are optional in the declared interface. -/
structure SevenDayPlan where
  summary : String
  estimated_savings_percent : ℚ
  comfort_impact : String
  daily_plan : Option PlanMap
  plan_7_day : Option PlanMap
deriving DecidableEq, Repr

/-- UserProfile from api.ts. -/
structure UserProfile where
  occupancy_density : String
  daytime_load_probability : ℚ
  hvac_usage : String
  thermal_comfort_setpoint : Option String
  water_heating_source : String
  appliance_load_tier : String
deriving DecidableEq, Repr

/-- The `usage_behavior` nested object of ConsumptionInsights. -/
structure UsageBehavior where
  peak_hours : List Int
  peak_months : Option (List String)
  weekend_behavior : Option String
  weekend_increase_percent : Option ℚ
  avg_hourly_kw : Option ℚ
deriving DecidableEq, Repr

/-- The `spike_profile` nested object of ConsumptionInsights. -/
structure SpikeProfile where
  spike_rate_percent : Option ℚ
  spike_count : Option ℚ
  avg_spike_kw : Option ℚ
  max_spike_kw : Option ℚ
  spike_peak_hours : Option (List Int)
  weekend_spike_percent : Option ℚ
deriving DecidableEq, Repr

/-- The `weather_context` nested object of ConsumptionInsights. -/
structure WeatherContext where
  avg_temp_c : Option ℚ
  thermal_condition : Option String
  humidity_level : Option String
  wind_cooling_effect : Option String
  heat_stress_index : Option ℚ
  temp_kwh_correlation : Option ℚ
  temp_correlation : Option ℚ
  weather_driver : String
deriving DecidableEq, Repr

/-- ConsumptionInsights from api.ts. -/
structure ConsumptionInsights where
  usage_behavior : UsageBehavior
  spike_profile : SpikeProfile
  weather_context : WeatherContext
deriving DecidableEq, Repr

/-- The optional `daily_breakdown` nested object of ForecastAnalysis. -/
structure DailyBreakdown where
  highest_day : Option String
  lowest_day : Option String
  pattern_type : Option String
deriving DecidableEq, Repr

/-- ForecastAnalysis from api.ts. -/
structure ForecastAnalysis where
  forecast_summary : String
  forecast_insights : List String
  daily_breakdown : Option DailyBreakdown
deriving DecidableEq, Repr

/-- AnalysisResult from api.ts: the exact declared structure of the result
the frontend consumes.  Note that `forecast_analysis` is declared optional
(`forecast_analysis?: ForecastAnalysis`). -/
structure AnalysisResult where
  analysis_id : String
  created_at : String
  user_profile : UserProfile
  consumption_insights : ConsumptionInsights
  risk_report : RiskReport
  forecast_analysis : Option ForecastAnalysis
  seven_day_energy_plan : SevenDayPlan
  forecast_data : List ForecastDataPoint
deriving DecidableEq, Repr

/- ===== DashboardPage (src/unnamed/part_000) ===== -/

/-- The DayPlan record built by `mapApiToPlan`; `date` is the calendar day
`today + index` as a day number. -/
structure DayPlan where
  dayLabel : String
  date : Nat
  actions : List DayPlanAction
deriving DecidableEq, Repr

/-- The `Object.entries(dailyPlan).forEach` loop of `mapApiToPlan`: days
with a non-empty action list are pushed with date `today + index`, where
`index` counts all entries (including skipped ones). -/
def mapPlanEntries (today : Nat) : Nat → PlanMap → List DayPlan
  | _, [] => []
  | index, (dayKey, actions) :: rest =>
    if 0 < actions.length then
      { dayLabel := dayKey, date := today + index, actions := actions } ::
        mapPlanEntries today (index + 1) rest
    else
      mapPlanEntries today (index + 1) rest

/-- mapApiToPlan from DashboardPage: prefers the `"7_day_plan"` key and
falls back to `daily_plan` (`seven_day_energy_plan["7_day_plan"] ||
seven_day_energy_plan.daily_plan`); returns `[]` when neither is present. -/
def mapApiToPlan (today : Nat) (data : AnalysisResult) : List DayPlan :=
  let dailyPlan :=
    match data.seven_day_energy_plan.plan_7_day with
    | some m => some m
    | none => data.seven_day_energy_plan.daily_plan
  match dailyPlan with
  | none => []
  | some dp => mapPlanEntries today 0 dp

/-- The savings percentage displayed by DashboardPage:
`sevenDayPlan?.estimated_savings_percent || 10`.  A missing plan yields the
default 10, and so does a (falsy) value of exactly 0. -/
def savingsPercent (sevenDayPlan : Option SevenDayPlan) : ℚ :=
  match sevenDayPlan with
  | none => 10
  | some p => if p.estimated_savings_percent = 0 then 10 else p.estimated_savings_percent

/- ===== RiskReportCard (src/unnamed/part_002) ===== -/

/-- The style record returned by `getSeverityStyles` in RiskReportCard. -/
structure SeverityStyles where
  bg : String
  text : String
  border : String
deriving DecidableEq, Repr

/-- The model of JavaScript `String.prototype.toLowerCase`: lowercase every
character (for the ASCII alphabet the two functions agree character by
character). -/
def jsToLowerCase (s : String) : String :=
  String.mk (s.data.map Char.toLower)

/-- getSeverityStyles from RiskReportCard: lowercases the severity and maps
"high" to the destructive style, "medium" to the warning style, and
everything else to the insight style. -/
def getSeverityStyles (severity : String) : SeverityStyles :=
  let lower := jsToLowerCase severity
  if lower = "high" then
    { bg := "bg-destructive/10", text := "text-destructive", border := "border-destructive/30" }
  else if lower = "medium" then
    { bg := "bg-warning/10", text := "text-warning", border := "border-warning/30" }
  else
    { bg := "bg-insight/10", text := "text-insight", border := "border-insight/30" }

/-- The destructive (high) style of `getSeverityStyles`. -/
def destructiveStyles : SeverityStyles :=
  { bg := "bg-destructive/10", text := "text-destructive", border := "border-destructive/30" }

/-- The warning (medium) style of `getSeverityStyles`. -/
def warningStyles : SeverityStyles :=
  { bg := "bg-warning/10", text := "text-warning", border := "border-warning/30" }

/-- The insight (low) style of `getSeverityStyles`. -/
def insightStyles : SeverityStyles :=
  { bg := "bg-insight/10", text := "text-insight", border := "border-insight/30" }

/-- The guard `riskReport.risk_details && riskReport.risk_details.length > 0`
controlling the risk-day detail block of RiskReportCard. -/
def riskDetailsRendered (r : RiskReport) : Bool :=
  decide (0 < r.risk_details.length)

/-- The guard `riskReport.total_risk_days === 0` controlling the
"No High-Risk Days Detected" banner of RiskReportCard. -/
def noRiskBannerRendered (r : RiskReport) : Bool :=
  decide (r.total_risk_days = 0)

/-- The sequence of risk-day detail entries RiskReportCard renders (each with
the styles computed for its severity), in render order. -/
def renderedRiskDetails (r : RiskReport) : List (RiskDay × SeverityStyles) :=
  if riskDetailsRendered r then
    r.risk_details.map (fun day => (day, getSeverityStyles day.severity))
  else
    []

/- ===== DashboardPage data extraction and mock defaults (src/unnamed/part_000) ===== -/

/-- mockUserProfile from DashboardPage. -/
def mockUserProfile : UserProfile :=
  { occupancy_density := "medium"
    daytime_load_probability := 0.7
    hvac_usage := "moderate"
    thermal_comfort_setpoint := some "22-24"
    water_heating_source := "electric geyser"
    appliance_load_tier := "moderate" }

/-- mockConsumptionInsights from DashboardPage. -/
def mockConsumptionInsights : ConsumptionInsights :=
  { usage_behavior :=
      { peak_hours := [18, 19, 20, 21, 22]
        peak_months := some ["June", "July", "August"]
        weekend_behavior := some "higher"
        weekend_increase_percent := some 15
        avg_hourly_kw := none }
    spike_profile :=
      { spike_rate_percent := some 8.5
        spike_count := none
        avg_spike_kw := some 3.2
        max_spike_kw := none
        spike_peak_hours := some [19, 20, 21]
        weekend_spike_percent := some 25 }
    weather_context :=
      { avg_temp_c := some 28.5
        thermal_condition := some "warm"
        humidity_level := some "moderate"
        wind_cooling_effect := some "moderate"
        heat_stress_index := some 32
        temp_kwh_correlation := some 0.4
        temp_correlation := none
        weather_driver := "weather-neutral" } }

/-- mockRiskReport from DashboardPage. -/
def mockRiskReport : RiskReport :=
  { total_risk_days := 0
    risk_details := []
    summary := "No high-risk days detected for the upcoming week." }

/-- The record produced by the data-extraction `useMemo` of DashboardPage. -/
structure DashboardData where
  userProfile : UserProfile
  consumptionInsights : ConsumptionInsights
  riskReport : RiskReport
  plan : List DayPlan
  forecastData : List ForecastDataPoint
  sevenDayPlan : Option SevenDayPlan
  forecastAnalysis : Option ForecastAnalysis
deriving DecidableEq, Repr

/-- The data-extraction `useMemo` of DashboardPage: mock values when no
analysis data is loaded, otherwise the fields of the AnalysisResult
(`forecast_analysis || null` becomes the optional field itself). -/
def extractDashboard (today : Nat) (analysisData : Option AnalysisResult) :
    DashboardData :=
  match analysisData with
  | none =>
    { userProfile := mockUserProfile
      consumptionInsights := mockConsumptionInsights
      riskReport := mockRiskReport
      plan := []
      forecastData := []
      sevenDayPlan := none
      forecastAnalysis := none }
  | some d =>
    { userProfile := d.user_profile
      consumptionInsights := d.consumption_insights
      riskReport := d.risk_report
      plan := mapApiToPlan today d
      forecastData := d.forecast_data
      sevenDayPlan := some d.seven_day_energy_plan
      forecastAnalysis := d.forecast_analysis }

/- ===== Chat handling (src/unnamed/part_000, handleSendMessage) ===== -/

/-- Chat roles shared by the UI messages and the Groq conversation. -/
inductive ChatRole
  | system
  | user
  | assistant
deriving DecidableEq, Repr

/-- ChatMessage from types/index.ts; `id` is `Date.now().toString()` and
`timestamp` is the creation time, both driven by a `now` parameter. -/
structure ChatMsg where
  id : String
  role : ChatRole
  content : String
  timestamp : Nat
deriving DecidableEq, Repr

/-- ChatMessage from services/groq.ts (conversation-history entries). -/
structure GroqMessage where
  role : ChatRole
  content : String
deriving DecidableEq, Repr

/-- handleSendMessage from DashboardPage, as a state transformer: given the
current `chatMessages` and `conversationHistory` and the outcome of the
`sendChatMessage` call, it returns the new pair (chatMessages,
conversationHistory).  The user message is appended before the call; on
success the history gains the user/assistant pair and the chat gains the
assistant reply; on rejection the history is untouched and the chat gains a
single assistant error message (`error.message || 'Unable to connect to AI
service'`, so an empty message string falls back to the default). -/
def handleSendMessage (now : Nat) (message : String)
    (chatMessages : List ChatMsg) (conversationHistory : List GroqMessage)
    (result : Except String String) : List ChatMsg × List GroqMessage :=
  let userMessage : ChatMsg :=
    { id := toString now, role := .user, content := message, timestamp := now }
  let chatAfterUser := chatMessages ++ [userMessage]
  match result with
  | .ok aiResponseContent =>
    (chatAfterUser ++
       [{ id := toString (now + 1), role := .assistant,
          content := aiResponseContent, timestamp := now }],
     conversationHistory ++
       [{ role := .user, content := message },
        { role := .assistant, content := aiResponseContent }])
  | .error errMessage =>
    (chatAfterUser ++
       [{ id := toString (now + 1), role := .assistant,
          content := "Sorry, I encountered an error: " ++
            (if errMessage = "" then "Unable to connect to AI service" else errMessage) ++
            ". Please try again.",
          timestamp := now }],
     conversationHistory)

/- ===== Daily aggregation (src/unnamed/part_004 and ChartCard.tsx) ===== -/

/-- ConsumptionData from types/index.ts. -/
structure ConsumptionData where
  date : String
  hour : Option Nat
  kWh : ℚ
  isPeak : Option Bool
deriving DecidableEq, Repr

/-- The Map-building fold of `getDailyConsumption`: for each row, add its
kWh onto the accumulated total for its date (0 when absent). -/
def dailyFoldStep (m : List (String × ℚ)) (item : ConsumptionData) :
    List (String × ℚ) :=
  mapSet m item.date ((mapGet m item.date).getD 0 + item.kWh)

/-- getDailyConsumption from mockData: group rows by date, sum kWh per date,
then emit one entry per date rounded to two decimals (`toFixed(2)`). -/
def getDailyConsumption (data : List ConsumptionData) : List ConsumptionData :=
  let dailyMap := data.foldl dailyFoldStep []
  dailyMap.map (fun e => { date := e.1, hour := none, kWh := round2 e.2, isPeak := none })

/-- The Map-building fold of ChartCard's `dailyData`: entries are keyed by
the calendar-date label of the point's datetime (`dateOf` embeds
`toLocaleDateString`) and carry the running kWh sum together with the last
datetime seen for that key. -/
def chartDailyFoldStep (dateOf : String → String)
    (m : List (String × (ℚ × String))) (item : ForecastDataPoint) :
    List (String × (ℚ × String)) :=
  let k := dateOf item.datetime
  match mapGet m k with
  | some current => mapSet m k (current.1 + item.predicted_usage, item.datetime)
  | none => mapSet m k (item.predicted_usage, item.datetime)

/-- One entry of ChartCard's daily view. -/
structure ChartDailyEntry where
  date : String
  dayName : String
  kWh : ℚ
deriving DecidableEq, Repr

/-- The grouping branch of ChartCard's `dailyData` memo (taken when
`forecastData` is non-empty; with an empty forecast the memo falls back to
`hourlyData` instead): group the forecast points by calendar-date key, sum
`predicted_usage` per day, and emit one rounded entry per day.  `dateOf` and
`dayNameOf` embed the two `toLocaleDateString` formattings. -/
def chartDailyData (dateOf dayNameOf : String → String)
    (forecastData : List ForecastDataPoint) : List ChartDailyEntry :=
  let dailyMap := forecastData.foldl (chartDailyFoldStep dateOf) []
  dailyMap.map (fun e => { date := e.1, dayName := dayNameOf e.2.2, kWh := round2 e.2.1 })

/-- The total kWh of rows carrying the given date. -/
def sumOn (d : String) (rows : List ConsumptionData) : ℚ :=
  ((rows.filter (fun r => r.date = d)).map (fun r => r.kWh)).sum

/-- The distinct dates of a row list in first-occurrence order, relative to
an already-seen set: the key order a JavaScript Map develops. -/
def newDates (seen : List String) : List ConsumptionData → List String
  | [] => []
  | r :: rs =>
    if r.date ∈ seen then newDates seen rs
    else r.date :: newDates (r.date :: seen) rs

/-- The distinct dates of a row list in first-occurrence order. -/
def distinctDates (rows : List ConsumptionData) : List String :=
  newDates [] rows

/- ===== OnboardingPage questionnaire (src/Insight-Watt-Frontend/src/components/SavingsSimulation.tsx) ===== -/

/-- The keys of QuestionnaireAnswers from api.ts. -/
inductive QKey
  | q1
  | q2
  | q3
  | q3_1
  | q4
  | q5
deriving DecidableEq, Repr

/-- A question of the OnboardingPage `questions` array: its answer key and
the optional `conditionalOn` clause (field, required value). -/
structure Question where
  id : QKey
  conditionalOn : Option (QKey × String)
deriving DecidableEq, Repr

/-- The `questions` array of OnboardingPage: q1, q2, q3, q3_1 (conditional
on q3 = "Yes"), q4, q5, in declaration order. -/
def questions : List Question :=
  [{ id := .q1, conditionalOn := none },
   { id := .q2, conditionalOn := none },
   { id := .q3, conditionalOn := none },
   { id := .q3_1, conditionalOn := some (.q3, "Yes") },
   { id := .q4, conditionalOn := none },
   { id := .q5, conditionalOn := none }]

/-- A `Partial<QuestionnaireAnswers>` object: the keys answered so far, in
insertion order. -/
abbrev Answers := List (QKey × String)

/-- visibleQuestions from OnboardingPage: questions whose `conditionalOn`
clause is absent or satisfied by the current answers. -/
def visibleQuestions (answers : Answers) : List Question :=
  questions.filter fun q =>
    match q.conditionalOn with
    | none => true
    | some cond => decide (mapGet answers cond.1 = some cond.2)

/-- The component state of OnboardingPage that the questionnaire logic
touches: the current question index and the partial answers. -/
structure OnbState where
  currentQuestion : Nat
  answers : Answers
deriving DecidableEq, Repr

/-- The initial OnboardingPage state: question 0, no answers. -/
def onbInit : OnbState := { currentQuestion := 0, answers := [] }

/-- The user-interface events the questionnaire step reacts to: choosing an
option of the currently shown question, or the "Previous question" button. -/
inductive OnbEvent
  | answer (value : String)
  | prev
deriving DecidableEq, Repr

/-- One event step of OnboardingPage.  `answer v` runs `handleAnswer` on the
currently rendered question `visibleQuestions[currentQuestion]` (a no-op if
none is rendered): the answer map gains the binding, and either the index
advances (`currentQuestion < visibleQuestions.length - 1`, with
`visibleQuestions` computed from the pre-event answers, as in the closure)
or `handleSubmitAnalysis` is called with the merged answers, returned as the
second component.  `prev` decrements the index (the button is only rendered
when it is positive; on 0 truncated subtraction keeps it at 0). -/
def onbStep (s : OnbState) : OnbEvent → OnbState × Option Answers
  | .prev => ({ s with currentQuestion := s.currentQuestion - 1 }, none)
  | .answer v =>
    let vq := visibleQuestions s.answers
    match vq[s.currentQuestion]? with
    | none => (s, none)
    | some q =>
      let a := mapSet s.answers q.id v
      if s.currentQuestion < vq.length - 1 then
        ({ currentQuestion := s.currentQuestion + 1, answers := a }, none)
      else
        ({ s with answers := a }, some a)

/-- Runs OnboardingPage from a state over a list of events and returns the
answers of the first submission, if one happens. -/
def onbRun (s : OnbState) : List OnbEvent → Option Answers
  | [] => none
  | e :: es =>
    match onbStep s e with
    | (_, some submitted) => some submitted
    | (s', none) => onbRun s' es

/- ===== Analysis orchestrator (spec §2, §4.6, §5) ===== -/

/-- Modelled from the spec: the stages of the analysis engine's dependency
graph (spec §2); the engine's source (the backend orchestrator) is not part
of the provided sources, so the stage graph is taken from the
specification's control-flow description. -/
inductive Stage
  | userContext
  | mergeWeather
  | consumptionInsight
  | forecast
  | forecastInsight
  | riskDetector
  | planSynthesizer
deriving DecidableEq, Repr

/-- Modelled from the spec: the per-stage lifecycle; `success` and
`degraded` are the two terminal success-or-degraded outcomes, `failed` the
fatal one (spec §4.6, §5). -/
inductive StageStatus
  | notStarted
  | running
  | success
  | degraded
  | failed
deriving DecidableEq, Repr

/-- Modelled from the spec: a stage status that counts as terminal
success-or-degraded for the fan-in barrier (spec §5: "terminal
(success-or-degraded) state"). -/
def terminalOk : StageStatus → Bool
  | .success => true
  | .degraded => true
  | _ => false

/-- Modelled from the spec: the dependency sets of spec §2's control flow;
in particular PlanSynthesizer depends on UserContext, ConsumptionInsight,
ForecastInsight and RiskDetector (the barrier set). -/
def deps : Stage → List Stage
  | .userContext => []
  | .mergeWeather => []
  | .consumptionInsight => [.mergeWeather]
  | .forecast => [.mergeWeather]
  | .forecastInsight => [.forecast]
  | .riskDetector => [.forecast]
  | .planSynthesizer => [.userContext, .consumptionInsight, .forecastInsight, .riskDetector]

/-- A scheduler state: the status of every stage. -/
def SchedState := Stage → StageStatus

/-- Pointwise update of a scheduler state. -/
def setStatus (f : SchedState) (s : Stage) (v : StageStatus) : SchedState :=
  fun t => if t = s then v else f t

/-- Modelled from the spec: the interleaving semantics of the structured-
concurrency scheduler (spec §5, §9).  A stage may start only when every
dependency has reached a terminal success-or-degraded state (the fan-in
barrier); a running stage may finish in success, degraded or failed mode.
Concurrency appears as the free interleaving of these steps. -/
inductive SchedStep : SchedState → SchedState → Prop
  | start (f : SchedState) (s : Stage) (h : f s = .notStarted)
      (hdeps : ∀ d ∈ deps s, terminalOk (f d) = true) :
      SchedStep f (setStatus f s .running)
  | finishSuccess (f : SchedState) (s : Stage) (h : f s = .running) :
      SchedStep f (setStatus f s .success)
  | finishDegraded (f : SchedState) (s : Stage) (h : f s = .running) :
      SchedStep f (setStatus f s .degraded)
  | finishFailed (f : SchedState) (s : Stage) (h : f s = .running) :
      SchedStep f (setStatus f s .failed)

/-- The initial scheduler state of an analysis run: nothing started. -/
def schedInit : SchedState := fun _ => .notStarted

/-- The scheduler states reachable during an analysis run. -/
def SchedReachable (f : SchedState) : Prop :=
  Relation.ReflTransGen SchedStep schedInit f

/- ===== Sample values used as concrete witnesses ===== -/

/-- The event trace that leaves a stale q3_1 answer: answer q1, q2, q3 as
"Yes", q3_1, then navigate back twice, change q3 to "No", and finish with
q4 and q5. -/
def staleRunEvents : List OnbEvent :=
  [.answer "1-2", .answer "Mostly empty", .answer "Yes", .answer "18-20",
   .prev, .prev, .answer "No", .answer "Electric geyser", .answer "0-1"]

/-- The answers this trace submits: q3 is "No", yet q3_1 is still present. -/
def staleSubmission : Answers :=
  [(QKey.q1, "1-2"), (QKey.q2, "Mostly empty"), (QKey.q3, "No"),
   (QKey.q3_1, "18-20"), (QKey.q4, "Electric geyser"), (QKey.q5, "0-1")]

/-- A run that answers q3 with "No" and never answers "Yes". -/
def cleanRunEvents : List OnbEvent :=
  [.answer "1-2", .answer "Mostly empty", .answer "No",
   .answer "Electric geyser", .answer "0-1"]

/-- The answers the clean run submits. -/
def cleanSubmission : Answers :=
  [(QKey.q1, "1-2"), (QKey.q2, "Mostly empty"), (QKey.q3, "No"),
   (QKey.q4, "Electric geyser"), (QKey.q5, "0-1")]

/-- States of a run in which UserContext completes in degraded mode and the
remaining dependencies succeed, after which PlanSynthesizer starts. -/
def schedS1 : SchedState := setStatus schedInit .userContext .running

/-- Trace state 2: UserContext finished degraded. -/
def schedS2 : SchedState := setStatus schedS1 .userContext .degraded

/-- Trace state 3: MergeWeather starts. -/
def schedS3 : SchedState := setStatus schedS2 .mergeWeather .running

/-- Trace state 4: MergeWeather succeeds. -/
def schedS4 : SchedState := setStatus schedS3 .mergeWeather .success

/-- Trace state 5: ConsumptionInsight starts. -/
def schedS5 : SchedState := setStatus schedS4 .consumptionInsight .running

/-- Trace state 6: ConsumptionInsight succeeds. -/
def schedS6 : SchedState := setStatus schedS5 .consumptionInsight .success

/-- Trace state 7: Forecast starts. -/
def schedS7 : SchedState := setStatus schedS6 .forecast .running

/-- Trace state 8: Forecast succeeds. -/
def schedS8 : SchedState := setStatus schedS7 .forecast .success

/-- Trace state 9: ForecastInsight starts. -/
def schedS9 : SchedState := setStatus schedS8 .forecastInsight .running

/-- Trace state 10: ForecastInsight succeeds. -/
def schedS10 : SchedState := setStatus schedS9 .forecastInsight .success

/-- Trace state 11: RiskDetector starts. -/
def schedS11 : SchedState := setStatus schedS10 .riskDetector .running

/-- Trace state 12: RiskDetector succeeds. -/
def schedS12 : SchedState := setStatus schedS11 .riskDetector .success

/-- Trace state 13: PlanSynthesizer starts behind the barrier even though
UserContext only reached degraded mode. -/
def schedS13 : SchedState := setStatus schedS12 .planSynthesizer .running

/-- The consumption row a forecast point contributes to ChartCard's daily
grouping: keyed by its calendar-date label and weighted by its predicted
usage. -/
def chartRow (dateOf : String → String) (p : ForecastDataPoint) : ConsumptionData :=
  { date := dateOf p.datetime, hour := none, kWh := p.predicted_usage, isPeak := none }

/-- Three sample consumption rows spanning two dates. -/
def sampleRows : List ConsumptionData :=
  [{ date := "2025-06-01", hour := some 0, kWh := 1, isPeak := some false },
   { date := "2025-06-01", hour := some 1, kWh := 2, isPeak := none },
   { date := "2025-06-02", hour := some 0, kWh := 3, isPeak := none }]

/-- A one-risk-day report used as a concrete witness. -/
def sampleRiskReport : RiskReport :=
  { total_risk_days := 1
    risk_details := [{ date := "2025-06-01", total_usage_kw := 42, reasons := ["High temperature"], severity := "high" }]
    summary := "1 risk day detected." }

/-- A plan with a nonzero savings percentage, used as a concrete witness. -/
def sampleSavingsPlan : SevenDayPlan :=
  { summary := "Shift evening cooling"
    estimated_savings_percent := 12
    comfort_impact := "low"
    daily_plan := some [("Day 1", [{ action := "Pre-cool at 5 PM", reason := "Avoid peak rates" }])]
    plan_7_day := none }

/-- A plan whose savings percentage is exactly 0, every field inside the
declared ranges. -/
def zeroSavingsPlan : SevenDayPlan :=
  { summary := "No savings available"
    estimated_savings_percent := 0
    comfort_impact := "low"
    daily_plan := some [("Day 1", [{ action := "Keep current habits", reason := "Usage already minimal" }])]
    plan_7_day := none }

/-- An AnalysisResult that is well-typed against the declared interface but
carries no `forecast_analysis` (the field is optional in api.ts). -/
def resultWithoutForecastAnalysis : AnalysisResult :=
  { analysis_id := "a-001"
    created_at := "2025-06-01T00:00:00Z"
    user_profile := mockUserProfile
    consumption_insights := mockConsumptionInsights
    risk_report := mockRiskReport
    forecast_analysis := none
    seven_day_energy_plan := sampleSavingsPlan
    forecast_data := [] }

/- ===== Claims ===== -/

/-- C1: the two plan-map key names are interchangeable: an AnalysisResult
carrying a mapping `dp` under only the `"7_day_plan"` key and one carrying
it under only the `daily_plan` key produce the same DayPlan list under
`mapApiToPlan`; and when both keys are present, the `"7_day_plan"` value is
the one used. -/
theorem plan_key_interchangeable (today : Nat) (base : AnalysisResult)
    (s c : String) (sav : ℚ) (dp dpOther : PlanMap) :
    (mapApiToPlan today { base with seven_day_energy_plan :=
        { summary := s, estimated_savings_percent := sav, comfort_impact := c,
          daily_plan := none, plan_7_day := some dp } } =
      mapApiToPlan today { base with seven_day_energy_plan :=
        { summary := s, estimated_savings_percent := sav, comfort_impact := c,
          daily_plan := some dp, plan_7_day := none } }) ∧
    (mapApiToPlan today { base with seven_day_energy_plan :=
        { summary := s, estimated_savings_percent := sav, comfort_impact := c,
          daily_plan := some dpOther, plan_7_day := some dp } } =
      mapApiToPlan today { base with seven_day_energy_plan :=
        { summary := s, estimated_savings_percent := sav, comfort_impact := c,
          daily_plan := none, plan_7_day := some dp } }) :=
  ⟨rfl, rfl⟩

/-- C2: for a RiskReport satisfying the invariant `total_risk_days =
len(risk_details)`, RiskReportCard renders the detail list iff
`total_risk_days > 0`, renders the no-risk banner iff `total_risk_days = 0`,
never renders both, and renders the details exactly in the order of
`risk_details`. -/
theorem riskReportCard_invariant_rendering (r : RiskReport)
    (hinv : r.total_risk_days = r.risk_details.length) :
    (riskDetailsRendered r = true ↔ 0 < r.total_risk_days) ∧
    (noRiskBannerRendered r = true ↔ r.total_risk_days = 0) ∧
    (¬(riskDetailsRendered r = true ∧ noRiskBannerRendered r = true)) ∧
    renderedRiskDetails r =
      (if 0 < r.total_risk_days then
        r.risk_details.map (fun day => (day, getSeverityStyles day.severity))
      else []) := by
  have hlen : (0 < r.total_risk_days) ↔ 0 < r.risk_details.length := by
    rw [hinv]; exact_mod_cast Iff.rfl
  have hzero : (r.total_risk_days = 0) ↔ r.risk_details.length = 0 := by
    rw [hinv]; exact_mod_cast Iff.rfl
  refine ⟨?_, ?_, ?_, ?_⟩
  · simp [riskDetailsRendered, hlen]
  · simp [noRiskBannerRendered, hzero]
  · rintro ⟨h1, h2⟩
    simp only [riskDetailsRendered, decide_eq_true_eq] at h1
    simp only [noRiskBannerRendered, decide_eq_true_eq] at h2
    rw [hzero] at h2
    omega
  · by_cases h : 0 < r.risk_details.length
    · rw [if_pos (hlen.mpr h)]
      simp [renderedRiskDetails, riskDetailsRendered, h]
    · rw [if_neg (fun hc => h (hlen.mp hc))]
      simp [renderedRiskDetails, riskDetailsRendered, h]

/-- Witness for C2: the rendering dichotomy evaluated on a concrete
one-risk-day report. -/
theorem riskReportCard_invariant_rendering_app :
    riskDetailsRendered sampleRiskReport = true ∧
    noRiskBannerRendered sampleRiskReport = false :=
  ⟨(riskReportCard_invariant_rendering sampleRiskReport (by decide)).1.mpr (by decide),
   by
     have h := (riskReportCard_invariant_rendering sampleRiskReport (by decide)).2.1
     by_contra hc
     simp only [Bool.not_eq_false] at hc
     exact absurd (h.mp hc) (by decide)⟩

/-- C3 counterexample: a SevenDayPlan whose `estimated_savings_percent` is
exactly 0 (inside [0,100]) is displayed as the default 10, not as 0, because
`sevenDayPlan?.estimated_savings_percent || 10` treats 0 as falsy. -/
theorem savingsPercent_zero_counterexample :
    zeroSavingsPlan.estimated_savings_percent = 0 ∧
    0 ≤ zeroSavingsPlan.estimated_savings_percent ∧
    zeroSavingsPlan.estimated_savings_percent ≤ 100 ∧
    savingsPercent (some zeroSavingsPlan) = 10 ∧
    savingsPercent (some zeroSavingsPlan) ≠ zeroSavingsPlan.estimated_savings_percent := by
  refine ⟨rfl, by norm_num [zeroSavingsPlan], by norm_num [zeroSavingsPlan], rfl, by norm_num [savingsPercent, zeroSavingsPlan]⟩

/-- C3 amended: for every SevenDayPlan whose `estimated_savings_percent`
lies in (0,100], the dashboard's `savingsPercent` equals that value (at
exactly 0 the displayed value is the default 10 instead). -/
theorem savingsPercent_nonzero_display (p : SevenDayPlan)
    (h0 : 0 < p.estimated_savings_percent)
    (_h100 : p.estimated_savings_percent ≤ 100) :
    savingsPercent (some p) = p.estimated_savings_percent := by
  simp [savingsPercent, h0.ne']

/-- Witness for C3: the amended display rule on a concrete plan with 12
percent savings. -/
theorem savingsPercent_nonzero_display_app :
    savingsPercent (some sampleSavingsPlan) = sampleSavingsPlan.estimated_savings_percent :=
  savingsPercent_nonzero_display sampleSavingsPlan (by norm_num [sampleSavingsPlan]) (by norm_num [sampleSavingsPlan])

/-- The entry loop of mapApiToPlan keeps exactly the entries with non-empty
action lists, in order, with the actions passed through unchanged. -/
theorem mapPlanEntries_filter (today : Nat) :
    ∀ (dp : PlanMap) (idx : Nat),
      (mapPlanEntries today idx dp).map (fun d => (d.dayLabel, d.actions)) =
        dp.filter (fun e => decide (0 < e.2.length)) := by
  intro dp
  induction dp with
  | nil => intro idx; rfl
  | cons e rest ih =>
    intro idx
    by_cases h : 0 < e.2.length
    · simp [mapPlanEntries, h, List.filter_cons, ih (idx + 1)]
    · simp [mapPlanEntries, h, List.filter_cons, ih (idx + 1)]

/-- Every day plan emitted by the entry loop has a non-empty action list. -/
theorem mapPlanEntries_nonempty (today : Nat) :
    ∀ (dp : PlanMap) (idx : Nat),
      (mapPlanEntries today idx dp).all (fun d => !d.actions.isEmpty) = true := by
  intro dp
  induction dp with
  | nil => intro idx; rfl
  | cons e rest ih =>
    intro idx
    by_cases h : 0 < e.2.length
    · simp only [mapPlanEntries, if_pos h, List.all_cons, ih (idx + 1), Bool.and_true]
      simp [List.isEmpty_iff, ← List.length_pos_iff_ne_nil, h]
    · simp only [mapPlanEntries, if_neg h]
      exact ih (idx + 1)

/-- C4: for every plan mapping `dp`, `mapApiToPlan` keeps a day exactly when
its action list is non-empty, preserves the mapping's key order, passes each
kept day's actions through unchanged, and every emitted DayPlan has a
non-empty action list; the same holds whichever of the two keys carries the
mapping. -/
theorem mapApiToPlan_nonempty_days (today : Nat) (base : AnalysisResult)
    (s c : String) (sav : ℚ) (dp : PlanMap) :
    ((mapApiToPlan today { base with seven_day_energy_plan :=
        { summary := s, estimated_savings_percent := sav, comfort_impact := c,
          daily_plan := none, plan_7_day := some dp } }).map
        (fun d => (d.dayLabel, d.actions)) =
      dp.filter (fun e => decide (0 < e.2.length))) ∧
    ((mapApiToPlan today { base with seven_day_energy_plan :=
        { summary := s, estimated_savings_percent := sav, comfort_impact := c,
          daily_plan := some dp, plan_7_day := none } }).map
        (fun d => (d.dayLabel, d.actions)) =
      dp.filter (fun e => decide (0 < e.2.length))) ∧
    ((mapApiToPlan today { base with seven_day_energy_plan :=
        { summary := s, estimated_savings_percent := sav, comfort_impact := c,
          daily_plan := none, plan_7_day := some dp } }).all
        (fun d => !d.actions.isEmpty) = true) :=
  ⟨mapPlanEntries_filter today dp 0, mapPlanEntries_filter today dp 0,
   mapPlanEntries_nonempty today dp 0⟩

/-- C5 counterexample: it is not true that every AnalysisResult carries a
forecast_analysis value; the field is declared optional and a result without
it is well-typed (DashboardPage maps its absence to null). -/
theorem forecast_analysis_not_always_present :
    ¬ (∀ r : AnalysisResult, r.forecast_analysis.isSome = true) := by
  intro h
  have := h resultWithoutForecastAnalysis
  simp [resultWithoutForecastAnalysis] at this

/-- C5 amended: every AnalysisResult contains the five required fields
user_profile, consumption_insights, risk_report, seven_day_energy_plan and
forecast_data, which DashboardPage consumes unchanged (the plan through
mapApiToPlan); forecast_analysis is optional in the declared structure and
is passed through as-is (absence becomes null), and a result without it
exists. -/
theorem analysisResult_structure_fields (today : Nat) (r : AnalysisResult) :
    (extractDashboard today (some r)).userProfile = r.user_profile ∧
    (extractDashboard today (some r)).consumptionInsights = r.consumption_insights ∧
    (extractDashboard today (some r)).riskReport = r.risk_report ∧
    (extractDashboard today (some r)).sevenDayPlan = some r.seven_day_energy_plan ∧
    (extractDashboard today (some r)).forecastData = r.forecast_data ∧
    (extractDashboard today (some r)).plan = mapApiToPlan today r ∧
    (extractDashboard today (some r)).forecastAnalysis = r.forecast_analysis ∧
    (∃ rMissing : AnalysisResult, rMissing.forecast_analysis = none) :=
  ⟨rfl, rfl, rfl, rfl, rfl, rfl, rfl, ⟨resultWithoutForecastAnalysis, rfl⟩⟩

/-- C9: getSeverityStyles is total over all strings and case-insensitive:
it yields the destructive style exactly when the lowercased severity is
"high", the warning style exactly when it is "medium", and the insight
style for every other string. -/
theorem getSeverityStyles_case_insensitive (severity : String) :
    (getSeverityStyles severity = destructiveStyles ↔ jsToLowerCase severity = "high") ∧
    (getSeverityStyles severity = warningStyles ↔ jsToLowerCase severity = "medium") ∧
    (jsToLowerCase severity ≠ "high" → jsToLowerCase severity ≠ "medium" →
      getSeverityStyles severity = insightStyles) := by
  have hdw : destructiveStyles ≠ warningStyles := by decide
  have hdi : destructiveStyles ≠ insightStyles := by decide
  have hwi : warningStyles ≠ insightStyles := by decide
  by_cases h1 : jsToLowerCase severity = "high"
  · refine ⟨?_, ?_, ?_⟩
    · simp [getSeverityStyles, h1, destructiveStyles]
    · constructor
      · intro hc
        rw [show getSeverityStyles severity = destructiveStyles by
          simp [getSeverityStyles, h1, destructiveStyles]] at hc
        exact absurd hc hdw
      · intro hc; rw [h1] at hc; exact absurd hc (by decide)
    · intro hc; exact absurd h1 hc
  · by_cases h2 : jsToLowerCase severity = "medium"
    · refine ⟨?_, ?_, ?_⟩
      · constructor
        · intro hc
          rw [show getSeverityStyles severity = warningStyles by
            simp [getSeverityStyles, h1, h2, warningStyles]] at hc
          exact absurd hc.symm hdw
        · intro hc; rw [h2] at hc; exact absurd hc (by decide)
      · simp [getSeverityStyles, h1, h2, warningStyles]
      · intro _ hc; exact absurd h2 hc
    · refine ⟨?_, ?_, ?_⟩
      · constructor
        · intro hc
          rw [show getSeverityStyles severity = insightStyles by
            simp [getSeverityStyles, h1, h2, insightStyles]] at hc
          exact absurd hc.symm hdi
        · intro hc; exact absurd hc h1
      · constructor
        · intro hc
          rw [show getSeverityStyles severity = insightStyles by
            simp [getSeverityStyles, h1, h2, insightStyles]] at hc
          exact absurd hc.symm hwi
        · intro hc; exact absurd hc h2
      · intro _ _; simp [getSeverityStyles, h1, h2, insightStyles]

/-- Witness for C9: an upper-case severity outside canonical casing maps to
the destructive style, and an unknown severity maps to the insight style. -/
theorem getSeverityStyles_case_insensitive_app :
    getSeverityStyles "HIGH" = destructiveStyles ∧
    getSeverityStyles "extreme" = insightStyles :=
  ⟨(getSeverityStyles_case_insensitive "HIGH").1.mpr (by decide),
   (getSeverityStyles_case_insensitive "extreme").2.2 (by decide) (by decide)⟩

/-- C10: chat state is atomic on error: when the AI call rejects, the
conversation history is left unchanged and exactly the user message plus one
assistant error message are appended to the chat; when it resolves, exactly
the user entry then the assistant entry are appended to the history, in that
order. -/
theorem handleSendMessage_atomicity (now : Nat) (message : String)
    (chat : List ChatMsg) (hist : List GroqMessage) (e a : String) :
    ((handleSendMessage now message chat hist (.error e)).2 = hist) ∧
    ((handleSendMessage now message chat hist (.error e)).1 =
      chat ++
        [{ id := toString now, role := .user, content := message, timestamp := now },
         { id := toString (now + 1), role := .assistant,
           content := "Sorry, I encountered an error: " ++
             (if e = "" then "Unable to connect to AI service" else e) ++
             ". Please try again.",
           timestamp := now }]) ∧
    ((handleSendMessage now message chat hist (.ok a)).2 =
      hist ++ [{ role := .user, content := message },
               { role := .assistant, content := a }]) ∧
    ((handleSendMessage now message chat hist (.ok a)).1 =
      chat ++
        [{ id := toString now, role := .user, content := message, timestamp := now },
         { id := toString (now + 1), role := .assistant, content := a, timestamp := now }]) := by
  refine ⟨rfl, ?_, rfl, ?_⟩ <;> simp [handleSendMessage]

/- ===== Association-list lemmas for the Map model ===== -/

/-- Looking up the key just set yields the value just set. -/
theorem mapGet_mapSet_self {κ α : Type} [DecidableEq κ]
    (m : List (κ × α)) (k : κ) (v : α) : mapGet (mapSet m k v) k = some v := by
  unfold mapSet
  by_cases h : (mapGet m k).isSome
  · rw [if_pos h]
    induction m with
    | nil => simp [mapGet] at h
    | cons e rest ih =>
      by_cases he : e.1 = k
      · simp [mapGet, he]
      · have h' : (mapGet rest k).isSome := by
          simpa [mapGet, he] using h
        simpa [mapGet, he] using ih h'
  · rw [if_neg h]
    have h0 : mapGet m k = none := by
      cases hm : mapGet m k with
      | none => rfl
      | some v' => rw [hm] at h; simp at h
    clear h
    induction m with
    | nil => simp [mapGet]
    | cons e rest ih =>
      by_cases he : e.1 = k
      · simp [mapGet, he] at h0
      · have h' : mapGet rest k = none := by simpa [mapGet, he] using h0
        simpa [mapGet, he] using ih h'

/-- Setting one key leaves the lookup of every other key unchanged. -/
theorem mapGet_mapSet_ne {κ α : Type} [DecidableEq κ]
    (m : List (κ × α)) (k k' : κ) (v : α) (hne : k' ≠ k) :
    mapGet (mapSet m k v) k' = mapGet m k' := by
  have hks : k ≠ k' := Ne.symm hne
  unfold mapSet
  by_cases h : (mapGet m k).isSome
  · rw [if_pos h]
    clear h
    induction m with
    | nil => simp [mapGet]
    | cons e rest ih =>
      by_cases he : e.1 = k
      · simp [mapGet, he, hks, ih]
      · by_cases he' : e.1 = k'
        · simp [mapGet, he, he', hne]
        · simp [mapGet, he, he', ih]
  · rw [if_neg h]
    clear h
    induction m with
    | nil => simp [mapGet, hks]
    | cons e rest ih => by_cases he' : e.1 = k' <;> simp [mapGet, he', ih]

/- ===== C6: the conditional thermal-comfort question ===== -/

/-- The question q3_1 is visible exactly when the q3 answer is "Yes". -/
theorem q3_1_visible_iff (answers : Answers) :
    ((visibleQuestions answers).any fun q => decide (q.id = QKey.q3_1)) = true ↔
      mapGet answers QKey.q3 = some "Yes" := by
  by_cases h : mapGet answers QKey.q3 = some "Yes" <;>
    simp [visibleQuestions, questions, h]

/-- When q3 is not answered "Yes", exactly five questions are visible. -/
theorem visibleQuestions_length_eq_five (answers : Answers)
    (h : mapGet answers QKey.q3 ≠ some "Yes") :
    (visibleQuestions answers).length = 5 := by
  simp [visibleQuestions, questions, h]

/-- When q3 is answered "Yes", all six questions are visible. -/
theorem visibleQuestions_length_eq_six (answers : Answers)
    (h : mapGet answers QKey.q3 = some "Yes") :
    (visibleQuestions answers).length = 6 := by
  simp [visibleQuestions, questions, h]

/-- A question rendered while q3 is not answered "Yes" is not q3_1. -/
theorem rendered_question_ne_q3_1 (answers : Answers) (i : Nat) (q : Question)
    (h3 : mapGet answers QKey.q3 ≠ some "Yes")
    (hq : (visibleQuestions answers)[i]? = some q) : q.id ≠ QKey.q3_1 := by
  intro hid
  have hmem : q ∈ visibleQuestions answers := List.getElem?_mem hq
  have hpred := List.of_mem_filter hmem
  have hmemQ : q ∈ questions := List.mem_of_mem_filter hmem
  simp only [questions, List.mem_cons, List.not_mem_nil, or_false] at hmemQ
  rcases hmemQ with h | h | h | h | h | h <;> subst h <;> simp_all

/-- One onboarding step whose answer value is not "Yes" preserves the
invariant that q3 is not answered "Yes" and q3_1 is unanswered, and any
submission it produces contains no q3_1 binding. -/
theorem onbStep_preserves (s : OnbState) (e : OnbEvent)
    (hv : ∀ v, e = OnbEvent.answer v → v ≠ "Yes")
    (h3 : mapGet s.answers QKey.q3 ≠ some "Yes")
    (h31 : mapGet s.answers QKey.q3_1 = none) :
    (mapGet (onbStep s e).1.answers QKey.q3 ≠ some "Yes" ∧
     mapGet (onbStep s e).1.answers QKey.q3_1 = none) ∧
    (∀ a, (onbStep s e).2 = some a → mapGet a QKey.q3_1 = none) := by
  cases e with
  | prev =>
    refine ⟨⟨h3, h31⟩, ?_⟩
    intro a ha
    simp [onbStep] at ha
  | answer v =>
    have hvne : v ≠ "Yes" := hv v rfl
    simp only [onbStep]
    cases hq : (visibleQuestions s.answers)[s.currentQuestion]? with
    | none =>
      refine ⟨⟨h3, h31⟩, ?_⟩
      intro a ha
      simp at ha
    | some q =>
      have hq31 : q.id ≠ QKey.q3_1 :=
        rendered_question_ne_q3_1 s.answers s.currentQuestion q h3 hq
      have ha31 : mapGet (mapSet s.answers q.id v) QKey.q3_1 = none := by
        rw [mapGet_mapSet_ne s.answers q.id QKey.q3_1 v (Ne.symm hq31)]
        exact h31
      have ha3 : mapGet (mapSet s.answers q.id v) QKey.q3 ≠ some "Yes" := by
        by_cases hq3 : q.id = QKey.q3
        · rw [hq3, mapGet_mapSet_self]
          intro hc
          exact hvne (Option.some.inj hc)
        · rw [mapGet_mapSet_ne s.answers q.id QKey.q3 v (Ne.symm hq3)]
          exact h3
      dsimp only
      by_cases hlt : s.currentQuestion < (visibleQuestions s.answers).length - 1
      · rw [if_pos hlt]
        refine ⟨⟨ha3, ha31⟩, ?_⟩
        intro a ha
        simp at ha
      · rw [if_neg hlt]
        refine ⟨⟨ha3, ha31⟩, ?_⟩
        intro a ha
        simp only [Option.some.injEq] at ha
        rw [← ha]
        exact ha31

/-- In any onboarding run in which no "Yes" answer is ever given, the
submitted answers contain no q3_1 binding. -/
theorem onbRun_no_stale_q3_1 : ∀ (events : List OnbEvent) (s : OnbState),
    (∀ v, OnbEvent.answer v ∈ events → v ≠ "Yes") →
    mapGet s.answers QKey.q3 ≠ some "Yes" →
    mapGet s.answers QKey.q3_1 = none →
    ∀ sub, onbRun s events = some sub → mapGet sub QKey.q3_1 = none := by
  intro events
  induction events with
  | nil =>
    intro s _ _ _ sub h
    simp [onbRun] at h
  | cons e es ih =>
    intro s hv h3 h31 sub hrun
    have hstep := onbStep_preserves s e
      (fun v hev => hv v (by rw [hev] at *; exact List.mem_cons_self _ _)) h3 h31
    rw [onbRun] at hrun
    cases hse : onbStep s e with
    | mk s' osub =>
      rw [hse] at hrun hstep
      cases osub with
      | some a =>
        simp only [Option.some.injEq] at hrun
        rw [← hrun]
        exact hstep.2 a rfl
      | none =>
        exact ih s' (fun v hm => hv v (List.mem_cons_of_mem _ hm))
          hstep.1.1 hstep.1.2 sub hrun

/-- C6 counterexample: a run of OnboardingPage in which q3 is (finally)
answered "No" but whose submitted QuestionnaireAnswers still contain a q3_1
key: answering q3_1 while q3 was "Yes" and then changing q3 to "No" leaves
the stale setpoint in the submission. -/
theorem thermal_question_stale_counterexample :
    onbRun onbInit staleRunEvents = some staleSubmission ∧
    mapGet staleSubmission QKey.q3 = some "No" ∧
    mapGet staleSubmission QKey.q3_1 = some "18-20" := by
  refine ⟨by decide, by decide, by decide⟩

/-- C6 amended: the q3_1 question appears in visibleQuestions exactly when
answers.q3 is "Yes"; whenever q3 is not answered "Yes" exactly five
questions are shown; and every run that never gives a "Yes" answer submits
QuestionnaireAnswers without a q3_1 key.  (A q3_1 answer given while q3 was
"Yes" does persist in the submission if q3 is later changed to "No".) -/
theorem thermal_question_conditional (answers : Answers) (events : List OnbEvent) :
    (((visibleQuestions answers).any fun q => decide (q.id = QKey.q3_1)) = true ↔
        mapGet answers QKey.q3 = some "Yes") ∧
    (mapGet answers QKey.q3 ≠ some "Yes" → (visibleQuestions answers).length = 5) ∧
    ((∀ v, OnbEvent.answer v ∈ events → v ≠ "Yes") →
      ∀ sub, onbRun onbInit events = some sub → mapGet sub QKey.q3_1 = none) :=
  ⟨q3_1_visible_iff answers,
   visibleQuestions_length_eq_five answers,
   fun hv sub h =>
     onbRun_no_stale_q3_1 events onbInit hv (by simp [onbInit, mapGet])
       (by simp [onbInit, mapGet]) sub h⟩

/-- Witness for C6: the amended theorem applied to the concrete clean run,
whose submission indeed carries no q3_1 key. -/
theorem thermal_question_conditional_app :
    mapGet cleanSubmission QKey.q3_1 = none :=
  (thermal_question_conditional [] cleanRunEvents).2.2
    (by
      intro v hv
      simp only [cleanRunEvents, List.mem_cons, List.not_mem_nil, or_false,
        OnbEvent.answer.injEq] at hv
      rcases hv with rfl | rfl | rfl | rfl | rfl <;> decide)
    cleanSubmission (by decide)

/- ===== C7: the fan-in barrier before PlanSynthesizer ===== -/

/-- A terminal success-or-degraded status is frozen: no scheduler step can
change it. -/
theorem SchedStep_preserves_terminalOk (f f' : SchedState) (t : Stage)
    (hstep : SchedStep f f') (hok : terminalOk (f t) = true) :
    terminalOk (f' t) = true := by
  cases hstep with
  | start s h hdeps =>
    by_cases hts : t = s
    · rw [hts] at hok; rw [h] at hok; simp [terminalOk] at hok
    · simpa [setStatus, hts] using hok
  | finishSuccess s h =>
    by_cases hts : t = s
    · simp [setStatus, hts, terminalOk]
    · simpa [setStatus, hts] using hok
  | finishDegraded s h =>
    by_cases hts : t = s
    · simp [setStatus, hts, terminalOk]
    · simpa [setStatus, hts] using hok
  | finishFailed s h =>
    by_cases hts : t = s
    · rw [hts] at hok; rw [h] at hok; simp [terminalOk] at hok
    · simpa [setStatus, hts] using hok

/-- Dependencies of PlanSynthesizer never include PlanSynthesizer itself. -/
theorem mem_deps_planSynthesizer_ne (d : Stage)
    (hd : d ∈ deps Stage.planSynthesizer) : d ≠ Stage.planSynthesizer := by
  simp only [deps, List.mem_cons, List.not_mem_nil, or_false] at hd
  rcases hd with rfl | rfl | rfl | rfl <;> decide

/-- The barrier invariant: once PlanSynthesizer is no longer unstarted, all
four of its dependencies are in a terminal success-or-degraded state. -/
theorem SchedReachable_barrier_invariant (f : SchedState)
    (hreach : SchedReachable f) :
    f Stage.planSynthesizer ≠ StageStatus.notStarted →
      ∀ d ∈ deps Stage.planSynthesizer, terminalOk (f d) = true := by
  induction hreach with
  | refl => intro h; exact absurd rfl h
  | tail hr hstep ih =>
    rename_i g g'
    intro hstarted d hd
    by_cases hg : g Stage.planSynthesizer = StageStatus.notStarted
    · cases hstep with
      | start s h hdeps =>
        by_cases hps : s = Stage.planSynthesizer
        · subst hps
          have hdne : d ≠ Stage.planSynthesizer := mem_deps_planSynthesizer_ne d hd
          have hok := hdeps d hd
          simpa [setStatus, hdne] using hok
        · exfalso
          apply hstarted
          have hns : Stage.planSynthesizer ≠ s := fun hc => hps hc.symm
          simp [setStatus, hns, hg]
      | finishSuccess s h =>
        by_cases hps : s = Stage.planSynthesizer
        · rw [hps] at h; rw [h] at hg; exact absurd hg (by decide)
        · exfalso
          apply hstarted
          have hns : Stage.planSynthesizer ≠ s := fun hc => hps hc.symm
          simp [setStatus, hns, hg]
      | finishDegraded s h =>
        by_cases hps : s = Stage.planSynthesizer
        · rw [hps] at h; rw [h] at hg; exact absurd hg (by decide)
        · exfalso
          apply hstarted
          have hns : Stage.planSynthesizer ≠ s := fun hc => hps hc.symm
          simp [setStatus, hns, hg]
      | finishFailed s h =>
        by_cases hps : s = Stage.planSynthesizer
        · rw [hps] at h; rw [h] at hg; exact absurd hg (by decide)
        · exfalso
          apply hstarted
          have hns : Stage.planSynthesizer ≠ s := fun hc => hps hc.symm
          simp [setStatus, hns, hg]
    · exact SchedStep_preserves_terminalOk g g' d hstep (ih hg d hd)

/-- The degraded-UserContext trace is a legal scheduler run. -/
theorem schedS13_reachable : SchedReachable schedS13 := by
  have h1 : SchedStep schedInit schedS1 := .start _ _ (by decide) (by decide)
  have h2 : SchedStep schedS1 schedS2 := .finishDegraded _ _ (by decide)
  have h3 : SchedStep schedS2 schedS3 := .start _ _ (by decide) (by decide)
  have h4 : SchedStep schedS3 schedS4 := .finishSuccess _ _ (by decide)
  have h5 : SchedStep schedS4 schedS5 := .start _ _ (by decide) (by decide)
  have h6 : SchedStep schedS5 schedS6 := .finishSuccess _ _ (by decide)
  have h7 : SchedStep schedS6 schedS7 := .start _ _ (by decide) (by decide)
  have h8 : SchedStep schedS7 schedS8 := .finishSuccess _ _ (by decide)
  have h9 : SchedStep schedS8 schedS9 := .start _ _ (by decide) (by decide)
  have h10 : SchedStep schedS9 schedS10 := .finishSuccess _ _ (by decide)
  have h11 : SchedStep schedS10 schedS11 := .start _ _ (by decide) (by decide)
  have h12 : SchedStep schedS11 schedS12 := .finishSuccess _ _ (by decide)
  have h13 : SchedStep schedS12 schedS13 := .start _ _ (by decide) (by decide)
  exact (((((((((((((Relation.ReflTransGen.refl.tail h1).tail h2).tail
    h3).tail h4).tail h5).tail h6).tail h7).tail h8).tail h9).tail
    h10).tail h11).tail h12).tail h13)

/-- C7 (spec-modelled): in every run of the scheduler, PlanSynthesizer is
started only when all four of its dependencies (UserContext,
ConsumptionInsight, ForecastInsight, RiskDetector) have reached a terminal
success-or-degraded state; and a dependency that finished degraded does not
block the barrier: there is a run in which UserContext is degraded and
PlanSynthesizer nevertheless runs. -/
theorem planSynthesizer_barrier :
    (∀ f : SchedState, SchedReachable f →
        f Stage.planSynthesizer ≠ StageStatus.notStarted →
        ∀ d ∈ deps Stage.planSynthesizer, terminalOk (f d) = true) ∧
    (∃ f : SchedState, SchedReachable f ∧
        f Stage.userContext = StageStatus.degraded ∧
        f Stage.planSynthesizer = StageStatus.running) :=
  ⟨fun f hreach => SchedReachable_barrier_invariant f hreach,
   ⟨schedS13, schedS13_reachable, by decide, by decide⟩⟩

/-- Witness for C7: the barrier property evaluated at the concrete degraded
trace's final state, where PlanSynthesizer has started. -/
theorem planSynthesizer_barrier_app :
    ∀ d ∈ deps Stage.planSynthesizer, terminalOk (schedS13 d) = true :=
  planSynthesizer_barrier.1 schedS13 schedS13_reachable (by decide)

/- ===== C8: daily aggregation preserves totals ===== -/

/-- Appending one row adds its kWh to exactly its date's group sum. -/
theorem sumOn_append_single (d : String) (rows : List ConsumptionData)
    (r : ConsumptionData) :
    sumOn d (rows ++ [r]) = sumOn d rows + (if r.date = d then r.kWh else 0) := by
  unfold sumOn
  rw [List.filter_append, List.map_append, List.sum_append]
  by_cases h : r.date = d <;> simp [h]

/-- A date absent from the rows has group sum zero. -/
theorem sumOn_eq_zero (d : String) (rows : List ConsumptionData)
    (h : d ∉ rows.map (fun r => r.date)) : sumOn d rows = 0 := by
  unfold sumOn
  have hfil : rows.filter (fun r => r.date = d) = [] := by
    rw [List.filter_eq_nil_iff]
    intro r hr
    simp only [decide_eq_true_eq]
    intro hc
    exact h (by rw [← hc]; exact List.mem_map_of_mem _ hr)
  rw [hfil]
  rfl

/-- Membership in the accumulated distinct-date list. -/
theorem mem_newDates : ∀ (rows : List ConsumptionData) (seen : List String)
    (d : String),
    d ∈ newDates seen rows ↔ (d ∉ seen ∧ d ∈ rows.map (fun r => r.date)) := by
  intro rows
  induction rows with
  | nil => intro seen d; simp [newDates]
  | cons r rs ih =>
    intro seen d
    by_cases h : r.date ∈ seen
    · rw [newDates, if_pos h, ih]
      constructor
      · rintro ⟨hns, hmem⟩
        exact ⟨hns, by simp [hmem]⟩
      · rintro ⟨hns, hmem⟩
        refine ⟨hns, ?_⟩
        simp only [List.map_cons, List.mem_cons] at hmem
        rcases hmem with rfl | hmem
        · exact absurd h hns
        · exact hmem
    · rw [newDates, if_neg h]
      simp only [List.mem_cons, ih (r.date :: seen) d, List.map_cons]
      constructor
      · rintro (rfl | ⟨hns, hmem⟩)
        · exact ⟨h, Or.inl rfl⟩
        · exact ⟨fun hc => hns (Or.inr hc), Or.inr hmem⟩
      · rintro ⟨hns, rfl | hmem⟩
        · exact Or.inl rfl
        · by_cases hdr : d = r.date
          · exact Or.inl hdr
          · exact Or.inr ⟨by simp [List.mem_cons, hdr, hns], hmem⟩

/-- The distinct-date list never repeats a date. -/
theorem newDates_nodup : ∀ (rows : List ConsumptionData) (seen : List String),
    (newDates seen rows).Nodup := by
  intro rows
  induction rows with
  | nil => intro seen; simp [newDates]
  | cons r rs ih =>
    intro seen
    by_cases h : r.date ∈ seen
    · rw [newDates, if_pos h]; exact ih seen
    · rw [newDates, if_neg h]
      refine List.nodup_cons.mpr ⟨?_, ih (r.date :: seen)⟩
      intro hc
      exact (mem_newDates rs (r.date :: seen) r.date).mp hc |>.1 (List.mem_cons_self _ _)

/-- Looking up a key in a keyed map of a distinct-date list. -/
theorem mapGet_map_pair {β : Type} (g : String → β) :
    ∀ (dd : List String) (k : String),
      mapGet (dd.map (fun d => (d, g d))) k = if k ∈ dd then some (g k) else none := by
  intro dd
  induction dd with
  | nil => intro k; simp [mapGet]
  | cons d rest ih =>
    intro k
    by_cases h : d = k
    · subst h
      simp [mapGet, List.mem_cons]
    · rw [List.map_cons, mapGet, if_neg h, ih]
      by_cases hk : k ∈ rest <;> simp [List.mem_cons, Ne.symm h, hk]

/-- Appending one row appends its date to the distinct-date list exactly
when the date is new. -/
theorem newDates_append_single : ∀ (rows : List ConsumptionData)
    (seen : List String) (r : ConsumptionData),
    newDates seen (rows ++ [r]) =
      newDates seen rows ++
        (if r.date ∈ seen ∨ r.date ∈ rows.map (fun x => x.date) then []
         else [r.date]) := by
  intro rows
  induction rows with
  | nil =>
    intro seen r
    by_cases h : r.date ∈ seen <;> simp [newDates, h]
  | cons x rs ih =>
    intro seen r
    by_cases hx : x.date ∈ seen
    · rw [List.cons_append, newDates, if_pos hx, ih seen r, newDates, if_pos hx]
      congr 1
      by_cases hrs : r.date ∈ seen
      · simp [hrs]
      · by_cases hrx : r.date = x.date
        · rw [hrx] at hrs; exact absurd hx hrs
        · simp [hrs, hrx, List.mem_cons]
    · rw [List.cons_append, newDates, if_neg hx, ih (x.date :: seen) r,
        newDates, if_neg hx, List.cons_append]
      congr 2
      by_cases hrx : r.date = x.date
      · simp [hrx, List.mem_cons]
      · by_cases hrs : r.date ∈ seen <;>
          simp [hrs, hrx, List.mem_cons]

/-- Sums distribute over pointwise addition of mapped functions. -/
theorem sum_map_add {α : Type} (l : List α) (f g : α → ℚ) :
    (l.map (fun x => f x + g x)).sum = (l.map f).sum + (l.map g).sum := by
  induction l with
  | nil => simp
  | cons a rest ih => simp [ih]; ring

/-- An indicator sum over a list missing the key is zero. -/
theorem sum_map_ite_not_mem (l : List String) (k : String) (c : ℚ)
    (h : k ∉ l) : (l.map (fun d => if k = d then c else 0)).sum = 0 := by
  induction l with
  | nil => simp
  | cons d rest ih =>
    have hdk : k ≠ d := fun hc => h (by rw [hc]; exact List.mem_cons_self _ _)
    rw [List.map_cons, List.sum_cons, if_neg hdk,
      ih (fun hc => h (List.mem_cons_of_mem _ hc))]
    ring

/-- An indicator sum over a duplicate-free list containing the key is the
indicated value. -/
theorem sum_map_ite_nodup (l : List String) (k : String) (c : ℚ)
    (hnd : l.Nodup) (h : k ∈ l) :
    (l.map (fun d => if k = d then c else 0)).sum = c := by
  induction l with
  | nil => simp at h
  | cons d rest ih =>
    rcases List.mem_cons.mp h with rfl | hmem
    · rw [List.map_cons, List.sum_cons, if_pos rfl,
        sum_map_ite_not_mem rest k c (List.nodup_cons.mp hnd).1]
      ring
    · have hdk : k ≠ d := by
        intro hc
        rw [hc] at hmem
        exact (List.nodup_cons.mp hnd).1 hmem
      rw [List.map_cons, List.sum_cons, if_neg hdk,
        ih (List.nodup_cons.mp hnd).2 hmem]
      ring

/-- Characterization of the daily fold: after processing all rows, the map
holds exactly the distinct dates in first-occurrence order, each paired with
its total kWh. -/
theorem dailyFold_eq (rows : List ConsumptionData) :
    rows.foldl dailyFoldStep [] =
      (distinctDates rows).map (fun d => (d, sumOn d rows)) := by
  induction rows using List.reverseRecOn with
  | nil => rfl
  | append_singleton rows r ih =>
    rw [List.foldl_append, ih, List.foldl_cons, List.foldl_nil]
    unfold dailyFoldStep
    rw [mapGet_map_pair]
    by_cases hmem : r.date ∈ distinctDates rows
    · rw [if_pos hmem]
      have hdate : r.date ∈ rows.map (fun x => x.date) :=
        ((mem_newDates rows [] r.date).mp hmem).2
      have hdd : distinctDates (rows ++ [r]) = distinctDates rows := by
        unfold distinctDates
        rw [newDates_append_single rows [] r, if_pos (Or.inr hdate),
          List.append_nil]
      rw [hdd]
      unfold mapSet
      rw [mapGet_map_pair, if_pos hmem]
      simp only [Option.isSome_some, if_pos, Option.getD_some, List.map_map]
      apply List.map_congr_left
      intro d hd
      by_cases hdr : d = r.date
      · subst hdr
        simp [sumOn_append_single]
      · have : ¬ (r.date = d) := fun hc => hdr hc.symm
        simp [Function.comp, hdr, sumOn_append_single, this]
    · rw [if_neg hmem]
      have hdate : r.date ∉ rows.map (fun x => x.date) := by
        intro hc
        exact hmem ((mem_newDates rows [] r.date).mpr ⟨List.not_mem_nil _, hc⟩)
      have hdd : distinctDates (rows ++ [r]) = distinctDates rows ++ [r.date] := by
        unfold distinctDates
        rw [newDates_append_single rows [] r,
          if_neg (by simp [List.not_mem_nil, hdate])]
      rw [hdd]
      unfold mapSet
      rw [mapGet_map_pair, if_neg hmem]
      simp only [Option.isSome_none, Bool.false_eq_true, if_false,
        Option.getD_none, List.map_append]
      congr 1
      · apply List.map_congr_left
        intro d hd
        have hdr : ¬ (r.date = d) := by
          intro hc
          rw [hc] at hmem
          exact hmem hd
        simp [sumOn_append_single, hdr]
      · simp [sumOn_append_single, sumOn_eq_zero r.date rows hdate]

/-- The distinct-date group sums add back up to the total of all rows. -/
theorem sum_sumOn (rows : List ConsumptionData) :
    ((distinctDates rows).map (fun d => sumOn d rows)).sum =
      (rows.map (fun r => r.kWh)).sum := by
  induction rows using List.reverseRecOn with
  | nil => rfl
  | append_singleton rows r ih =>
    by_cases hmem : r.date ∈ distinctDates rows
    · have hdate : r.date ∈ rows.map (fun x => x.date) :=
        ((mem_newDates rows [] r.date).mp hmem).2
      have hdd : distinctDates (rows ++ [r]) = distinctDates rows := by
        unfold distinctDates
        rw [newDates_append_single rows [] r, if_pos (Or.inr hdate),
          List.append_nil]
      rw [hdd]
      have hsplit :
          (distinctDates rows).map (fun d => sumOn d (rows ++ [r])) =
            (distinctDates rows).map
              (fun d => sumOn d rows + (if r.date = d then r.kWh else 0)) := by
        apply List.map_congr_left
        intro d _
        rw [sumOn_append_single]
      rw [hsplit, sum_map_add, ih,
        sum_map_ite_nodup (distinctDates rows) r.date r.kWh
          (newDates_nodup rows []) hmem,
        List.map_append, List.sum_append]
      simp
    · have hdate : r.date ∉ rows.map (fun x => x.date) := by
        intro hc
        exact hmem ((mem_newDates rows [] r.date).mpr ⟨List.not_mem_nil _, hc⟩)
      have hdd : distinctDates (rows ++ [r]) = distinctDates rows ++ [r.date] := by
        unfold distinctDates
        rw [newDates_append_single rows [] r,
          if_neg (by simp [List.not_mem_nil, hdate])]
      rw [hdd, List.map_append, List.sum_append]
      have hsplit :
          (distinctDates rows).map (fun d => sumOn d (rows ++ [r])) =
            (distinctDates rows).map (fun d => sumOn d rows) := by
        apply List.map_congr_left
        intro d hd
        have hdr : ¬ (r.date = d) := by
          intro hc
          rw [hc] at hmem
          exact hmem hd
        rw [sumOn_append_single, if_neg hdr, add_zero]
      rw [hsplit, ih]
      simp [sumOn_append_single, sumOn_eq_zero r.date rows hdate]


/-- Lookups in the chart grouping map project to lookups of running totals. -/
theorem mapGet_proj (m : List (String × (ℚ × String))) (k : String) :
    mapGet (m.map (fun e => (e.1, e.2.1))) k = (mapGet m k).map (fun q => q.1) := by
  induction m with
  | nil => simp [mapGet]
  | cons e rest ih => by_cases h : e.1 = k <;> simp [mapGet, h, ih]

/-- Updates of the chart grouping map project to updates of running totals. -/
theorem mapSet_proj (m : List (String × (ℚ × String))) (k : String) (v : ℚ × String) :
    (mapSet m k v).map (fun e => (e.1, e.2.1)) =
      mapSet (m.map (fun e => (e.1, e.2.1))) k v.1 := by
  unfold mapSet
  rw [mapGet_proj]
  cases homk : mapGet m k with
  | none => simp [List.map_append]
  | some w =>
    simp only [Option.map_some', Option.isSome_some, if_true, List.map_map]
    apply List.map_congr_left
    intro e _
    by_cases hek : e.1 = k <;> simp [hek]

/-- One chart-grouping step projects (dropping the remembered datetime) to
one daily-consumption step on the corresponding consumption row. -/
theorem chartStep_proj (dateOf : String → String)
    (m : List (String × (ℚ × String))) (p : ForecastDataPoint) :
    (chartDailyFoldStep dateOf m p).map (fun e => (e.1, e.2.1)) =
      dailyFoldStep (m.map (fun e => (e.1, e.2.1))) (chartRow dateOf p) := by
  simp only [chartDailyFoldStep, dailyFoldStep, chartRow]
  rw [mapGet_proj]
  cases homk : mapGet m (dateOf p.datetime) with
  | none =>
    dsimp only
    rw [mapSet_proj]
    simp
  | some w =>
    dsimp only
    rw [mapSet_proj]
    simp

/-- The chart grouping fold projects pointwise to the daily-consumption fold
over the corresponding consumption rows. -/
theorem chartFold_proj (dateOf : String → String) :
    ∀ (fd : List ForecastDataPoint) (m : List (String × (ℚ × String))),
      (fd.foldl (chartDailyFoldStep dateOf) m).map (fun e => (e.1, e.2.1)) =
        (fd.map (chartRow dateOf)).foldl dailyFoldStep
          (m.map (fun e => (e.1, e.2.1))) := by
  intro fd
  induction fd with
  | nil => intro m; rfl
  | cons p rest ih =>
    intro m
    rw [List.foldl_cons, List.map_cons, List.foldl_cons, ih, chartStep_proj]

/-- Component extraction from a projected grouping map. -/
theorem proj_map_components (l : List (String × (ℚ × String)))
    (dd : List String) (g : String → ℚ)
    (h : l.map (fun e => (e.1, e.2.1)) = dd.map (fun d => (d, g d))) :
    l.map (fun e => e.1) = dd ∧
    l.map (fun e => round2 e.2.1) = dd.map (fun d => round2 (g d)) := by
  have h1 := congrArg (List.map (fun q : String × ℚ => q.1)) h
  have h2 := congrArg (List.map (fun q : String × ℚ => round2 q.2)) h
  rw [List.map_map, List.map_map] at h1
  rw [List.map_map, List.map_map] at h2
  constructor
  · calc l.map (fun e => e.1)
        = l.map ((fun q : String × ℚ => q.1) ∘
            fun e : String × (ℚ × String) => (e.1, e.2.1)) := by
          apply List.map_congr_left; intro e _; rfl
      _ = dd.map ((fun q : String × ℚ => q.1) ∘ fun d => (d, g d)) := h1
      _ = dd.map (fun d => d) := by
          apply List.map_congr_left; intro d _; rfl
      _ = dd := List.map_id' dd
  · calc l.map (fun e => round2 e.2.1)
        = l.map ((fun q : String × ℚ => round2 q.2) ∘
            fun e : String × (ℚ × String) => (e.1, e.2.1)) := by
          apply List.map_congr_left; intro e _; rfl
      _ = dd.map ((fun q : String × ℚ => round2 q.2) ∘ fun d => (d, g d)) := h2
      _ = dd.map (fun d => round2 (g d)) := by
          apply List.map_congr_left; intro d _; rfl

/-- C8: daily aggregation preserves the total.  `getDailyConsumption`
returns exactly one entry per distinct input date (in first-occurrence
order, duplicate-free, covering exactly the input dates), and its output
total is the sum of the per-day rounded group totals, whose unrounded
versions add back up to the input total.  ChartCard's `dailyData` grouping
of forecast points by calendar date satisfies the same properties with
respect to `predicted_usage`. -/
theorem daily_aggregation_preserves_total (rows : List ConsumptionData)
    (dateOf dayNameOf : String → String) (fd : List ForecastDataPoint) :
    ((getDailyConsumption rows).map (fun e => e.date) = distinctDates rows) ∧
    (distinctDates rows).Nodup ∧
    (∀ d, d ∈ distinctDates rows ↔ d ∈ rows.map (fun r => r.date)) ∧
    (((getDailyConsumption rows).map (fun e => e.kWh)).sum =
      ((distinctDates rows).map (fun d => round2 (sumOn d rows))).sum) ∧
    (((distinctDates rows).map (fun d => sumOn d rows)).sum =
      (rows.map (fun r => r.kWh)).sum) ∧
    ((chartDailyData dateOf dayNameOf fd).map (fun e => e.date) =
      distinctDates (fd.map (chartRow dateOf))) ∧
    (((chartDailyData dateOf dayNameOf fd).map (fun e => e.kWh)).sum =
      ((distinctDates (fd.map (chartRow dateOf))).map
        (fun d => round2 (sumOn d (fd.map (chartRow dateOf))))).sum) ∧
    (((distinctDates (fd.map (chartRow dateOf))).map
        (fun d => sumOn d (fd.map (chartRow dateOf)))).sum =
      (fd.map (fun p => p.predicted_usage)).sum) := by
  have hdaily : getDailyConsumption rows =
      (distinctDates rows).map (fun d =>
        { date := d, hour := none, kWh := round2 (sumOn d rows), isPeak := none }) := by
    simp only [getDailyConsumption]
    rw [dailyFold_eq, List.map_map]
    apply List.map_congr_left
    intro d _
    rfl
  have hchart : (fd.foldl (chartDailyFoldStep dateOf) []).map (fun e => (e.1, e.2.1)) =
      (distinctDates (fd.map (chartRow dateOf))).map
        (fun d => (d, sumOn d (fd.map (chartRow dateOf)))) := by
    have h := chartFold_proj dateOf fd []
    simp only [List.map_nil] at h
    rw [h, dailyFold_eq]
  have hcomp := proj_map_components (fd.foldl (chartDailyFoldStep dateOf) [])
    (distinctDates (fd.map (chartRow dateOf)))
    (fun d => sumOn d (fd.map (chartRow dateOf))) hchart
  have hchart1 : (chartDailyData dateOf dayNameOf fd).map (fun e => e.date) =
      distinctDates (fd.map (chartRow dateOf)) := by
    simp only [chartDailyData]
    rw [List.map_map]
    calc (fd.foldl (chartDailyFoldStep dateOf) []).map
          ((fun e : ChartDailyEntry => e.date) ∘ fun e : String × (ℚ × String) =>
            ({ date := e.1, dayName := dayNameOf e.2.2, kWh := round2 e.2.1 } : ChartDailyEntry))
        = (fd.foldl (chartDailyFoldStep dateOf) []).map (fun e => e.1) := by
          apply List.map_congr_left; intro e _; rfl
      _ = distinctDates (fd.map (chartRow dateOf)) := hcomp.1
  have hchart2 : (chartDailyData dateOf dayNameOf fd).map (fun e => e.kWh) =
      (distinctDates (fd.map (chartRow dateOf))).map
        (fun d => round2 (sumOn d (fd.map (chartRow dateOf)))) := by
    simp only [chartDailyData]
    rw [List.map_map]
    calc (fd.foldl (chartDailyFoldStep dateOf) []).map
          ((fun e : ChartDailyEntry => e.kWh) ∘ fun e : String × (ℚ × String) =>
            ({ date := e.1, dayName := dayNameOf e.2.2, kWh := round2 e.2.1 } : ChartDailyEntry))
        = (fd.foldl (chartDailyFoldStep dateOf) []).map (fun e => round2 e.2.1) := by
          apply List.map_congr_left; intro e _; rfl
      _ = _ := hcomp.2
  refine ⟨?_, newDates_nodup rows [], ?_, ?_, sum_sumOn rows, hchart1, ?_, ?_⟩
  · rw [hdaily, List.map_map]
    calc (distinctDates rows).map
          ((fun e : ConsumptionData => e.date) ∘ fun d =>
            { date := d, hour := none, kWh := round2 (sumOn d rows), isPeak := none })
        = (distinctDates rows).map (fun d => d) := by
          apply List.map_congr_left; intro d _; rfl
      _ = distinctDates rows := List.map_id' _
  · intro d
    exact (mem_newDates rows [] d).trans (by simp)
  · rw [hdaily, List.map_map]
    congr 1
  · rw [hchart2]
  · rw [sum_sumOn (fd.map (chartRow dateOf)), List.map_map]
    apply congrArg
    apply List.map_congr_left
    intro p _
    rfl

/-- Witness for C8: aggregating three sample rows over two dates yields one
entry per distinct date, via the aggregation theorem. -/
theorem daily_aggregation_preserves_total_app :
    (getDailyConsumption sampleRows).map (fun e => e.date) =
      ["2025-06-01", "2025-06-02"] := by
  have h := (daily_aggregation_preserves_total sampleRows id id []).1
  rw [h]
  decide

end InsightWatt
